import Mathlib

/-!
Shallow embedding of the `lightIRRecv` IR remote receiver library
(`src/lightIRRecv/src/lightIRRecv.cpp` and its header).

The C code keeps its mutable state in a handful of globals (`referenceTime`,
`incomingCode`, the per-decoder `static` locals `bitsRemaining` / `bitTime`,
and the shared `remoteEvents` record).  We gather all of them into one
`LirrState` record and translate each entry point into a pure state
transformer taking the current `micros()` reading as an argument.  All
32-bit unsigned arithmetic is modelled on `Nat` with explicit reduction
modulo `2^32`.
-/

namespace LIRR

/-- 2^32, the modulus of the AVR `uint32_t` arithmetic used throughout. -/
def W : Nat := 4294967296

/-- Models the C expression `curTime - referenceTime` on `uint32_t`
(wraparound subtraction), for operands below `W`. -/
def elapsed (now ref : Nat) : Nat := (now + W - ref) % W

/-- `const uint8_t BUTTON_NONE = 0;` -/
def BUTTON_NONE : Nat := 0

/-- `const uint8_t BUTTON_PRESSED = 1;` -/
def BUTTON_PRESSED : Nat := 1

/-- `const uint8_t BUTTON_HELD = 2;` -/
def BUTTON_HELD : Nat := 2

/-- `const uint8_t BUTTON_RELEASED = 3;` -/
def BUTTON_RELEASED : Nat := 3

/-- `const uint32_t repeatInt = 100000UL;` -/
def repeatInt : Nat := 100000

/-- `struct lirrPulseFractionSettings_t` from the header. -/
structure PulseFractionSettings where
  bits : Nat
  distanceMode : Bool
  startMin : Nat
  startMax : Nat
  bitMin : Nat
  bitSep : Nat
  bitMax : Nat
deriving Repr, DecidableEq

/-- `struct lirrBiPhaseSettings_t` from the header; the two-element C arrays
become pairs (index 0 = min, index 1 = max). -/
structure BiPhaseSettings where
  bits : Nat
  aceRising : Bool
  bitTime : Nat × Nat
  startTime : Nat × Nat
  toggleTime : Nat × Nat
  togglePos : Nat
deriving Repr, DecidableEq

/-- Which timing-bound pair the bi-phase decoder's `bitTime` pointer
currently points at. -/
inductive BitSel where
  | startT : BitSel
  | bitT : BitSel
  | toggleT : BitSel
deriving Repr, DecidableEq

/-- The library's global mutable state: `referenceTime`, `incomingCode`,
the decoders' `static` locals, and the fields of `remoteEvents`. -/
structure LirrState where
  referenceTime : Nat
  incomingCode : Nat
  bitsRemaining : Nat
  bitSel : BitSel
  pressTime : Nat
  curTime : Nat
  buttonCode : Nat
  buttonState : Nat
  toggleState : Bool
deriving Repr, DecidableEq

/-- The `case true:` arm of the inner switch in `pulseFractionDecode`
(start-burst candidate check); reached either directly when no frame is in
progress, or by fallthrough after an out-of-bounds interval aborts a frame. -/
def pfStartCheck (cfg : PulseFractionSettings) (measuredTime : Nat)
    (s : LirrState) : LirrState :=
  if (measuredTime < cfg.startMax ∧ measuredTime > cfg.startMin)
      ∨ cfg.startMax = 0 then
    { s with bitsRemaining := cfg.bits, incomingCode := 0 }
  else s

/-- `pulseFractionDecode(bool pinState)`, with `micros()` passed in as
`curTime`.  Mirrors the C control flow, including the fallthrough from the
abort branch into the start-burst check with the same `measuredTime`. -/
def pulseFractionDecode (cfg : PulseFractionSettings) (pinState : Bool)
    (curTime : Nat) (s0 : LirrState) : LirrState :=
  if pinState = cfg.distanceMode then
    let measuredTime := elapsed curTime s0.referenceTime
    let s := { s0 with referenceTime := curTime }
    if s.bitsRemaining ≠ 0 then
      if measuredTime > cfg.bitMin ∧ measuredTime < cfg.bitMax then
        let br := s.bitsRemaining - 1
        let code :=
          if measuredTime > cfg.bitSep then
            s.incomingCode ||| (1 <<< br) % W
          else s.incomingCode
        let s1 := { s with bitsRemaining := br, incomingCode := code }
        if br = 0 ∧ s1.buttonState = BUTTON_NONE then
          { s1 with buttonCode := code, pressTime := curTime,
                    toggleState := !s1.toggleState }
        else s1
      else
        pfStartCheck cfg measuredTime { s with bitsRemaining := 0 }
    else
      pfStartCheck cfg measuredTime s
  else
    if cfg.distanceMode = false then { s0 with referenceTime := curTime }
    else s0

/-- Dereference of the bi-phase decoder's `bitTime` pointer. -/
def activePair (cfg : BiPhaseSettings) : BitSel → Nat × Nat
  | BitSel.startT => cfg.startTime
  | BitSel.bitT => cfg.bitTime
  | BitSel.toggleT => cfg.toggleTime

/-- The `case true:` arm of the switch in `biPhaseDecode` (wait for a rising
edge, then begin a frame with the start timing pair). -/
def bpStartCheck (cfg : BiPhaseSettings) (pinState : Bool) (curTime : Nat)
    (s : LirrState) : LirrState :=
  if pinState then
    { s with bitsRemaining := cfg.bits, incomingCode := 0,
             bitSel := BitSel.startT, referenceTime := curTime }
  else s

/-- `biPhaseDecode(bool pinState)`, with `micros()` passed in as `curTime`.
Mirrors the C control flow, including the fallthrough from the abort branch
(elapsed at or above the active pair's upper bound) into the start check. -/
def biPhaseDecode (cfg : BiPhaseSettings) (pinState : Bool) (curTime : Nat)
    (s0 : LirrState) : LirrState :=
  if s0.bitsRemaining ≠ 0 then
    let measuredTime := elapsed curTime s0.referenceTime
    let pair := activePair cfg s0.bitSel
    if measuredTime < pair.2 then
      if measuredTime > pair.1 then
        let s := { s0 with referenceTime := curTime }
        let br := s.bitsRemaining - 1
        let code :=
          if pinState = cfg.aceRising ∧ br ≠ cfg.togglePos then
            (s.incomingCode + (1 <<< br) % W) % W
          else s.incomingCode
        let s1 := { s with bitsRemaining := br, incomingCode := code }
        if br = 0 then
          if s1.buttonState = BUTTON_NONE then
            { s1 with buttonCode := code, pressTime := curTime,
                      toggleState := !s1.toggleState }
          else s1
        else
          { s1 with bitSel :=
              if br ≠ cfg.togglePos + 1 ∧ br ≠ cfg.togglePos then BitSel.bitT
              else BitSel.toggleT }
      else s0
    else
      bpStartCheck cfg pinState curTime { s0 with bitsRemaining := 0 }
  else
    bpStartCheck cfg pinState curTime s0

/-- `lirrGetEvents(void)`, with `micros()` passed in as `now`.  The atomic
read of `referenceTime` becomes a plain field read (the embedding treats the
whole call as one atomic step), and the result of the call is the updated
`remoteEvents` part of the state. -/
def lirrGetEvents (now : Nat) (s0 : LirrState) : LirrState :=
  let lastSignalTime := s0.referenceTime
  let s := { s0 with curTime := now }
  if s.buttonState = BUTTON_PRESSED then
    { s with buttonState := BUTTON_HELD }
  else if s.buttonState = BUTTON_HELD then
    if elapsed now lastSignalTime > repeatInt then
      { s with buttonState := BUTTON_RELEASED }
    else s
  else if s.buttonState = BUTTON_RELEASED then
    let s1 := { s with buttonState := BUTTON_NONE, buttonCode := 0 }
    if s1.buttonCode ≠ 0 then { s1 with buttonState := BUTTON_PRESSED }
    else s1
  else if s.buttonState = BUTTON_NONE then
    if s.buttonCode ≠ 0 then { s with buttonState := BUTTON_PRESSED }
    else s
  else s

/-- Run the pulse-fraction decoder over a list of measuring edges given by
their absolute timestamps (every edge has `pinState = distanceMode`). -/
def runPFMeasuring (cfg : PulseFractionSettings) (ts : List Nat)
    (s : LirrState) : LirrState :=
  ts.foldl (fun st t => pulseFractionDecode cfg cfg.distanceMode t st) s

/-- Absolute (mod `W`) timestamps of successive edges separated by the given
intervals, starting from reference time `t0`. -/
def measureTimes (t0 : Nat) : List Nat → List Nat
  | [] => []
  | d :: ds => ((t0 + d) % W) :: measureTimes ((t0 + d) % W) ds

/-- Most-significant-bit-first assembly of a pulse-fraction bit pattern:
interval `d` at position `k` (bits remaining before the bit is consumed)
contributes bit `k - 1` when `d` exceeds the separator threshold. -/
def msbAssemble (sep : Nat) : Nat → List Nat → Nat
  | _, [] => 0
  | k, d :: ds =>
    (if d > sep then (1 <<< (k - 1)) % W else 0) ||| msbAssemble sep (k - 1) ds

/-- Run the bi-phase decoder over a list of (edge level, absolute
timestamp) pairs. -/
def runBP (cfg : BiPhaseSettings) (es : List (Bool × Nat))
    (s : LirrState) : LirrState :=
  es.foldl (fun st e => biPhaseDecode cfg e.1 e.2 st) s

/-- Absolute (mod `W`) timestamps for bi-phase edges given by their levels
and the intervals separating them, starting from reference time `t0`. -/
def bpEdgeTimes (t0 : Nat) : List (Bool × Nat) → List (Bool × Nat)
  | [] => []
  | e :: es => (e.1, (t0 + e.2) % W) :: bpEdgeTimes ((t0 + e.2) % W) es

/-- Most-significant-bit-first assembly of a bi-phase frame: the mid-bit
edge consumed at position `k` (bits remaining before it is consumed)
contributes bit `k - 1` when its level matches the polarity flag and the
position is not the toggle position. -/
def bpAssemble (cfg : BiPhaseSettings) : Nat → List (Bool × Nat) → Nat
  | _, [] => 0
  | k, e :: es =>
    (if e.1 = cfg.aceRising ∧ k - 1 ≠ cfg.togglePos then
      (1 <<< (k - 1)) % W
     else 0) + bpAssemble cfg (k - 1) es

/-- A well-formed bi-phase frame body: each mid-bit interval lies strictly
inside the timing-bound pair active at that point, following the decoder's
own pair-selection rule (ordinary pair away from the toggle position,
toggle pair adjacent to it). -/
def bpFrameOk (cfg : BiPhaseSettings) :
    BitSel → Nat → List (Bool × Nat) → Bool
  | _, _, [] => true
  | sel, k, e :: es =>
    (decide ((activePair cfg sel).1 < e.2) &&
     decide (e.2 < (activePair cfg sel).2)) &&
    bpFrameOk cfg
      (if k - 1 ≠ cfg.togglePos + 1 ∧ k - 1 ≠ cfg.togglePos then BitSel.bitT
       else BitSel.toggleT) (k - 1) es

/-- Shift every timestamp field of the state by `d`, modulo `W`.  Used to
express wraparound-invariance of the decoders and the poll. -/
def shiftState (d : Nat) (s : LirrState) : LirrState :=
  { s with referenceTime := (s.referenceTime + d) % W,
           pressTime := (s.pressTime + d) % W,
           curTime := (s.curTime + d) % W }

/-- Invariant maintained by the bi-phase decoder within a frame: the
accumulator fits in 32 bits, has all bits below `bitsRemaining` clear, and
has the toggle-position bit clear. -/
def bpInv (cfg : BiPhaseSettings) (s : LirrState) : Prop :=
  s.bitsRemaining ≤ cfg.bits ∧ s.incomingCode < W ∧
  s.incomingCode % 2 ^ s.bitsRemaining = 0 ∧
  s.incomingCode.testBit cfg.togglePos = false

/-- The concrete pulse-fraction descriptor from the spec's testable
properties: bits=4, distance mode, start checking disabled,
bit bounds (400, 1200), separator 700. -/
def pfTestSettings : PulseFractionSettings := ⟨4, true, 0, 0, 400, 700, 1200⟩

/-- The power-on state of the library: all globals zeroed,
`remoteEvents = {0,0,0,BUTTON_NONE,false}`. -/
def freshState : LirrState := ⟨0, 0, 0, BitSel.bitT, 0, 0, 0, 0, false⟩

/-- State just after a single completed frame was published into a NONE
Event Record (code 5, completion edge at time 0), with no activity since. -/
def publishedState : LirrState := ⟨0, 0, 0, BitSel.bitT, 0, 0, 5, 0, false⟩

/-- A one-bit variant of `pfTestSettings`, so that a whole frame takes two
measuring edges. -/
def pfOneBitSettings : PulseFractionSettings := ⟨1, true, 0, 0, 400, 700, 1200⟩

/-- A small bi-phase descriptor for concrete frames: 3 bits, rising mid-bit
edge = 1, all three timing pairs (400, 1200), toggle position 1. -/
def bpTestSettings : BiPhaseSettings :=
  ⟨3, true, (400, 1200), (400, 1200), (400, 1200), 1⟩

/-! ### Helper lemmas shared by several claims -/

/-- An edge `d` microseconds after reference time `r` measures exactly `d`,
even when the timestamp wraps modulo `W`. -/
theorem elapsed_mod_add (r d : Nat) (hr : r < W) (hd : d < W) :
    elapsed ((r + d) % W) r = d := by
  unfold elapsed W at *
  omega

/-- `W` is positive, so timestamps reduced modulo `W` stay below `W`. -/
theorem mod_W_lt (n : Nat) : n % W < W := by
  unfold W
  omega

/-- Shifting both timestamps by the same amount (mod `W`) leaves the
wraparound difference unchanged. -/
theorem elapsed_shift (a b d : Nat) (ha : a < W) (hb : b < W) :
    elapsed ((a + d) % W) ((b + d) % W) = elapsed a b := by
  unfold elapsed W at *
  omega

/-- Field-level effect of an in-bounds mid-frame measuring edge of the
pulse-fraction decoder: the publish sub-branch never touches
`bitsRemaining`, `referenceTime` or `incomingCode`. -/
theorem pf_step_bit_fields (cfg : PulseFractionSettings) (s : LirrState)
    (t : Nat) (hbr : s.bitsRemaining ≠ 0)
    (h1 : elapsed t s.referenceTime > cfg.bitMin)
    (h2 : elapsed t s.referenceTime < cfg.bitMax) :
    (pulseFractionDecode cfg cfg.distanceMode t s).bitsRemaining
        = s.bitsRemaining - 1 ∧
    (pulseFractionDecode cfg cfg.distanceMode t s).referenceTime = t ∧
    (pulseFractionDecode cfg cfg.distanceMode t s).incomingCode =
      (if elapsed t s.referenceTime > cfg.bitSep then
        s.incomingCode ||| (1 <<< (s.bitsRemaining - 1)) % W
      else s.incomingCode) := by
  by_cases hsep : elapsed t s.referenceTime > cfg.bitSep <;>
  by_cases hp : s.bitsRemaining - 1 = 0 ∧ s.buttonState = BUTTON_NONE <;>
  simp [pulseFractionDecode, hbr, h1, h2, hsep, hp]

/-- Field-level effect of a measuring edge arriving while no frame is in
progress and satisfying the start condition. -/
theorem pf_step_start_fields (cfg : PulseFractionSettings) (s : LirrState)
    (t : Nat) (hbr : s.bitsRemaining = 0)
    (hs : (elapsed t s.referenceTime < cfg.startMax ∧
           cfg.startMin < elapsed t s.referenceTime) ∨ cfg.startMax = 0) :
    pulseFractionDecode cfg cfg.distanceMode t s =
      { s with referenceTime := t, bitsRemaining := cfg.bits,
               incomingCode := 0 } := by
  simp [pulseFractionDecode, pfStartCheck, hbr, hs]

/-- Decoding a full frame's worth of in-bounds bit intervals from a state
with `bitsRemaining = ds.length` counts the remaining bits down to zero and
ORs the most-significant-bit-first assembly into the accumulator. -/
theorem pf_run_frame (cfg : PulseFractionSettings) (hmax : cfg.bitMax ≤ W) :
    ∀ (ds : List Nat) (s : LirrState), s.bitsRemaining = ds.length →
    s.referenceTime < W →
    (∀ d ∈ ds, cfg.bitMin < d ∧ d < cfg.bitMax) →
    (runPFMeasuring cfg (measureTimes s.referenceTime ds) s).bitsRemaining
        = 0 ∧
    (runPFMeasuring cfg (measureTimes s.referenceTime ds) s).incomingCode =
      s.incomingCode ||| msbAssemble cfg.bitSep ds.length ds
  | [], s, hbr, _, _ => by
    simp [runPFMeasuring, measureTimes, msbAssemble, hbr]
  | d :: ds, s, hbr, hrt, hds => by
    have hd := hds d (List.mem_cons_self d ds)
    have hdW : d < W := lt_of_lt_of_le hd.2 hmax
    have he : elapsed ((s.referenceTime + d) % W) s.referenceTime = d :=
      elapsed_mod_add s.referenceTime d hrt hdW
    have hbr0 : s.bitsRemaining ≠ 0 := by
      rw [hbr]; exact Nat.succ_ne_zero ds.length
    have hstep := pf_step_bit_fields cfg s ((s.referenceTime + d) % W) hbr0
      (by rw [he]; exact hd.1) (by rw [he]; exact hd.2)
    set s1 := pulseFractionDecode cfg cfg.distanceMode
      ((s.referenceTime + d) % W) s with hs1
    have hbr1 : s1.bitsRemaining = ds.length := by
      rw [hstep.1, hbr]; simp
    have hrt1 : s1.referenceTime = (s.referenceTime + d) % W := hstep.2.1
    have ih := pf_run_frame cfg hmax ds s1 hbr1
      (by rw [hrt1]; exact mod_W_lt _)
      (fun x hx => hds x (List.mem_cons_of_mem d hx))
    rw [hrt1] at ih
    have hrun : runPFMeasuring cfg
        (measureTimes s.referenceTime (d :: ds)) s =
        runPFMeasuring cfg (measureTimes ((s.referenceTime + d) % W) ds)
          s1 := by
      simp [runPFMeasuring, measureTimes, hs1]
    refine ⟨by rw [hrun]; exact ih.1, ?_⟩
    rw [hrun, ih.2, hstep.2.2, he, hbr]
    simp only [List.length_cons, Nat.add_sub_cancel, msbAssemble]
    by_cases hsep : d > cfg.bitSep
    · simp [hsep, Nat.or_assoc]
    · simp [hsep]

/-- Starting with no frame in progress, a valid start interval followed by
one in-bounds interval per bit decodes the whole frame: afterwards no bits
remain and the accumulator holds the most-significant-bit-first assembly of
the pattern. -/
theorem pf_frame_from_idle (cfg : PulseFractionSettings) (s : LirrState)
    (startIv : Nat) (ds : List Nat) (hbits : cfg.bits = ds.length)
    (hbr : s.bitsRemaining = 0) (hrt : s.referenceTime < W)
    (hsv : startIv < W)
    (hstart : (startIv < cfg.startMax ∧ cfg.startMin < startIv) ∨
      cfg.startMax = 0)
    (hds : ∀ d ∈ ds, cfg.bitMin < d ∧ d < cfg.bitMax)
    (hmax : cfg.bitMax ≤ W) :
    (runPFMeasuring cfg (measureTimes s.referenceTime (startIv :: ds))
        s).bitsRemaining = 0 ∧
    (runPFMeasuring cfg (measureTimes s.referenceTime (startIv :: ds))
        s).incomingCode = msbAssemble cfg.bitSep cfg.bits ds := by
  have he : elapsed ((s.referenceTime + startIv) % W) s.referenceTime
      = startIv := elapsed_mod_add s.referenceTime startIv hrt hsv
  have hstep := pf_step_start_fields cfg s ((s.referenceTime + startIv) % W)
    hbr (by rw [he]; exact hstart)
  have hrun : runPFMeasuring cfg
      (measureTimes s.referenceTime (startIv :: ds)) s =
      runPFMeasuring cfg (measureTimes ((s.referenceTime + startIv) % W) ds)
        (pulseFractionDecode cfg cfg.distanceMode
          ((s.referenceTime + startIv) % W) s) := by
    simp [runPFMeasuring, measureTimes]
  rw [hrun, hstep]
  have hmain := pf_run_frame cfg hmax ds
    { s with referenceTime := (s.referenceTime + startIv) % W,
             bitsRemaining := cfg.bits, incomingCode := 0 }
    (by simpa using hbits)
    (by simpa using mod_W_lt (s.referenceTime + startIv)) hds
  simpa [hbits] using hmain

/-- The toggle field written by one pulse-fraction decoder invocation:
inverted exactly when the invocation accepts the final bit of a frame while
the Event Record's state is NONE. -/
theorem pf_decode_toggle (cfg : PulseFractionSettings) (pin : Bool)
    (t : Nat) (s : LirrState) :
    (pulseFractionDecode cfg pin t s).toggleState =
      (if pin = cfg.distanceMode ∧ s.bitsRemaining = 1 ∧
          cfg.bitMin < elapsed t s.referenceTime ∧
          elapsed t s.referenceTime < cfg.bitMax ∧
          s.buttonState = BUTTON_NONE then !s.toggleState
       else s.toggleState) := by
  by_cases hpin : pin = cfg.distanceMode
  · simp only [pulseFractionDecode, pfStartCheck, hpin]
    split_ifs <;> (try simp_all) <;> omega
  · simp only [pulseFractionDecode, hpin]
    simp [hpin]
    split <;> rfl

/-- The toggle field written by one bi-phase decoder invocation: inverted
exactly when the invocation accepts the final mid-bit transition of a frame
while the Event Record's state is NONE. -/
theorem bp_decode_toggle (cfg : BiPhaseSettings) (pin : Bool) (t : Nat)
    (s : LirrState) :
    (biPhaseDecode cfg pin t s).toggleState =
      (if s.bitsRemaining = 1 ∧
          (activePair cfg s.bitSel).1 < elapsed t s.referenceTime ∧
          elapsed t s.referenceTime < (activePair cfg s.bitSel).2 ∧
          s.buttonState = BUTTON_NONE then !s.toggleState
       else s.toggleState) := by
  simp only [biPhaseDecode, bpStartCheck]
  split_ifs <;> (try simp_all) <;> omega

/-- A poll never touches the toggle flag, whatever state it starts in. -/
theorem poll_preserves_toggle (t : Nat) (s : LirrState) :
    (lirrGetEvents t s).toggleState = s.toggleState := by
  by_cases h1 : s.buttonState = BUTTON_PRESSED <;>
  by_cases h2 : s.buttonState = BUTTON_HELD <;>
  by_cases h3 : s.buttonState = BUTTON_RELEASED <;>
  by_cases h4 : s.buttonState = BUTTON_NONE <;>
  by_cases h5 : s.buttonCode = 0 <;>
  by_cases h6 : elapsed t s.referenceTime > repeatInt <;>
  simp_all [lirrGetEvents, BUTTON_NONE, BUTTON_PRESSED, BUTTON_HELD,
    BUTTON_RELEASED] <;>
  (try (split <;> simp_all))

/-! ### Claim theorems -/

/-- C6: with the descriptor bits=4, distanceMode=true, start checking
disabled, bitMin=400, bitSep=700, bitMax=1200, the measuring-edge intervals
800, 800, 300, 800, 900, 500, 1600 produce exactly the §4.2 behaviour: the
first 800 begins a frame (4 bits remaining, accumulator 0); the second 800
accepts a 1-bit (accumulator 8, 3 remaining); 300 aborts and, start
checking being disabled, the same edge begins a new frame (4 remaining,
accumulator 0); 800 and 900 accept 1-bits (accumulator 8 then 12); 500
accepts a 0-bit (accumulator 12, 1 remaining); 1600 aborts and restarts
(accumulator 0), and no frame ever completes (the Event Record is never
written). -/
theorem c6_concrete_abort_restart_trace :
    (runPFMeasuring pfTestSettings [800] freshState).bitsRemaining = 4 ∧
    (runPFMeasuring pfTestSettings [800] freshState).incomingCode = 0 ∧
    (runPFMeasuring pfTestSettings [800, 1600] freshState).bitsRemaining
        = 3 ∧
    (runPFMeasuring pfTestSettings [800, 1600] freshState).incomingCode
        = 8 ∧
    (runPFMeasuring pfTestSettings [800, 1600, 1900]
        freshState).bitsRemaining = 4 ∧
    (runPFMeasuring pfTestSettings [800, 1600, 1900]
        freshState).incomingCode = 0 ∧
    (runPFMeasuring pfTestSettings [800, 1600, 1900, 2700]
        freshState).bitsRemaining = 3 ∧
    (runPFMeasuring pfTestSettings [800, 1600, 1900, 2700]
        freshState).incomingCode = 8 ∧
    (runPFMeasuring pfTestSettings [800, 1600, 1900, 2700, 3600]
        freshState).bitsRemaining = 2 ∧
    (runPFMeasuring pfTestSettings [800, 1600, 1900, 2700, 3600]
        freshState).incomingCode = 12 ∧
    (runPFMeasuring pfTestSettings [800, 1600, 1900, 2700, 3600, 4100]
        freshState).bitsRemaining = 1 ∧
    (runPFMeasuring pfTestSettings [800, 1600, 1900, 2700, 3600, 4100]
        freshState).incomingCode = 12 ∧
    (runPFMeasuring pfTestSettings [800, 1600, 1900, 2700, 3600, 4100, 5700]
        freshState).bitsRemaining = 4 ∧
    (runPFMeasuring pfTestSettings [800, 1600, 1900, 2700, 3600, 4100, 5700]
        freshState).incomingCode = 0 ∧
    (runPFMeasuring pfTestSettings [800, 1600, 1900, 2700, 3600, 4100, 5700]
        freshState).buttonCode = 0 ∧
    (runPFMeasuring pfTestSettings [800, 1600, 1900, 2700, 3600, 4100, 5700]
        freshState).toggleState = false ∧
    measureTimes 0 [800, 800, 300, 800, 900, 500, 1600]
        = [800, 1600, 1900, 2700, 3600, 4100, 5700] := by
  decide

/-- C8: one call to `lirrGetEvents` leaves `pressTime`, `toggleState`,
`referenceTime`, `incomingCode`, `bitsRemaining` and the bi-phase pair
selector unchanged, sets `curTime` to the poll time, and changes
`buttonCode` only by clearing it to 0 on the RELEASED→NONE transition;
`buttonState` and `curTime` are the only other fields it writes. -/
theorem c8_poll_frame_effect (t : Nat) (s : LirrState) :
    (lirrGetEvents t s).pressTime = s.pressTime ∧
    (lirrGetEvents t s).toggleState = s.toggleState ∧
    (lirrGetEvents t s).referenceTime = s.referenceTime ∧
    (lirrGetEvents t s).incomingCode = s.incomingCode ∧
    (lirrGetEvents t s).bitsRemaining = s.bitsRemaining ∧
    (lirrGetEvents t s).bitSel = s.bitSel ∧
    (lirrGetEvents t s).curTime = t ∧
    (lirrGetEvents t s).buttonCode =
      (if s.buttonState = BUTTON_RELEASED then 0 else s.buttonCode) := by
  by_cases h1 : s.buttonState = BUTTON_PRESSED <;>
  by_cases h2 : s.buttonState = BUTTON_HELD <;>
  by_cases h3 : s.buttonState = BUTTON_RELEASED <;>
  by_cases h4 : s.buttonState = BUTTON_NONE <;>
  by_cases h5 : s.buttonCode = 0 <;>
  by_cases h6 : elapsed t s.referenceTime > repeatInt <;>
  simp_all [lirrGetEvents, BUTTON_NONE, BUTTON_PRESSED, BUTTON_HELD,
    BUTTON_RELEASED] <;>
  (try (split <;> simp_all))

/-- C3 counterexample: from an Event Record holding one freshly published
code (state NONE, code 5, last decoder reference 0), polling at 200000 and
then 400000 — both long past the 100000 µs repeat interval — returns
BUTTON_PRESSED and then BUTTON_HELD.  The claim says the result sequence
contains no BUTTON_HELD results, so it is false on this input. -/
theorem c3_counterexample_second_poll_is_held :
    (lirrGetEvents 200000 publishedState).buttonState = BUTTON_PRESSED ∧
    (lirrGetEvents 400000
        (lirrGetEvents 200000 publishedState)).buttonState
      = BUTTON_HELD := by
  decide

/-- C3 as amended: an isolated press (one code published into a NONE Event
Record, then silence, every poll after the silence exceeded the repeat
interval) yields exactly one BUTTON_PRESSED poll, then exactly one
BUTTON_HELD poll (the PRESSED→HELD transition is unconditional and the
release check only runs on a poll that begins in HELD), then exactly one
BUTTON_RELEASED, after which the record is NONE with code 0 — a shape that
every later poll preserves. -/
theorem c3_isolated_press_poll_sequence (s : LirrState) (t1 t2 t3 t4 : Nat)
    (hns : s.buttonState = BUTTON_NONE) (hc : s.buttonCode ≠ 0)
    (h3 : elapsed t3 s.referenceTime > repeatInt) :
    (lirrGetEvents t1 s).buttonState = BUTTON_PRESSED ∧
    (lirrGetEvents t2 (lirrGetEvents t1 s)).buttonState = BUTTON_HELD ∧
    (lirrGetEvents t3 (lirrGetEvents t2
        (lirrGetEvents t1 s))).buttonState = BUTTON_RELEASED ∧
    (lirrGetEvents t4 (lirrGetEvents t3 (lirrGetEvents t2
        (lirrGetEvents t1 s)))).buttonState = BUTTON_NONE ∧
    (lirrGetEvents t4 (lirrGetEvents t3 (lirrGetEvents t2
        (lirrGetEvents t1 s)))).buttonCode = 0 ∧
    (∀ (u : Nat) (s2 : LirrState), s2.buttonState = BUTTON_NONE →
      s2.buttonCode = 0 →
      (lirrGetEvents u s2).buttonState = BUTTON_NONE ∧
      (lirrGetEvents u s2).buttonCode = 0) := by
  have e1 : lirrGetEvents t1 s =
      { s with curTime := t1, buttonState := BUTTON_PRESSED } := by
    simp [lirrGetEvents, hns, hc, BUTTON_NONE, BUTTON_PRESSED, BUTTON_HELD,
      BUTTON_RELEASED]
  have e2 : lirrGetEvents t2 (lirrGetEvents t1 s) =
      { s with curTime := t2, buttonState := BUTTON_HELD } := by
    rw [e1]
    simp [lirrGetEvents, BUTTON_PRESSED, BUTTON_HELD]
  have e3 : lirrGetEvents t3 (lirrGetEvents t2 (lirrGetEvents t1 s)) =
      { s with curTime := t3, buttonState := BUTTON_RELEASED } := by
    rw [e2]
    simp [lirrGetEvents, BUTTON_PRESSED, BUTTON_HELD, BUTTON_RELEASED, h3]
  have e4 : lirrGetEvents t4 (lirrGetEvents t3 (lirrGetEvents t2
      (lirrGetEvents t1 s))) =
      { s with curTime := t4, buttonState := BUTTON_NONE,
               buttonCode := 0 } := by
    rw [e3]
    simp [lirrGetEvents, BUTTON_PRESSED, BUTTON_HELD, BUTTON_RELEASED,
      BUTTON_NONE]
  refine ⟨by rw [e1], by rw [e2], by rw [e3], by rw [e4], by rw [e4],
    ?_⟩
  intro u s2 hs2 hc2
  simp [lirrGetEvents, hs2, hc2, BUTTON_NONE, BUTTON_PRESSED, BUTTON_HELD,
    BUTTON_RELEASED]

/-- Witness for the amended C3 theorem at a concrete isolated press,
including a fifth poll obtained from the theorem's trailing-poll clause. -/
theorem c3_isolated_press_witness :
    (lirrGetEvents 200000 publishedState).buttonState = BUTTON_PRESSED ∧
    (lirrGetEvents 400000
        (lirrGetEvents 200000 publishedState)).buttonState = BUTTON_HELD ∧
    (lirrGetEvents 600000 (lirrGetEvents 400000
        (lirrGetEvents 200000 publishedState))).buttonState
      = BUTTON_RELEASED ∧
    (lirrGetEvents 800000 (lirrGetEvents 600000 (lirrGetEvents 400000
        (lirrGetEvents 200000 publishedState)))).buttonState
      = BUTTON_NONE ∧
    (lirrGetEvents 1000000 (lirrGetEvents 800000 (lirrGetEvents 600000
        (lirrGetEvents 400000 (lirrGetEvents 200000
          publishedState))))).buttonState = BUTTON_NONE := by
  have h := c3_isolated_press_poll_sequence publishedState
    200000 400000 600000 800000 (by decide) (by decide) (by decide)
  exact ⟨h.1, h.2.1, h.2.2.1, h.2.2.2.1,
    (h.2.2.2.2.2 1000000 _ h.2.2.2.1 h.2.2.2.2.1).1⟩

/-- C4 counterexample: with a one-bit pulse-fraction descriptor, two frames
complete (edges at 800/1600 and 2400/3200) before any poll runs.  Both
completions see buttonState = NONE, so the toggle flag is inverted twice
(false → true → false), yet the poll interface then observes only a single
NONE→PRESSED transition.  The claim that the flag inverts exactly once per
observed NONE→PRESSED transition is therefore false on this input. -/
theorem c4_counterexample_two_flips_one_press :
    (runPFMeasuring pfOneBitSettings [800, 1600] freshState).toggleState
      = true ∧
    (runPFMeasuring pfOneBitSettings [800, 1600, 2400, 3200]
        freshState).toggleState = false ∧
    (lirrGetEvents 3300 (runPFMeasuring pfOneBitSettings
        [800, 1600, 2400, 3200] freshState)).buttonState
      = BUTTON_PRESSED := by
  decide

/-- C4 as amended: `toggleState` is inverted by a decoder invocation exactly
when that invocation completes a frame (last bit accepted) while the Event
Record's state is BUTTON_NONE, and a poll never changes it.  In particular
it is never inverted while repeat frames complete during PRESSED/HELD/
RELEASED, but several completions between two polls (or a completion
publishing code 0) can each invert it, so it may invert more than once per
observed NONE→PRESSED transition. -/
theorem c4_toggle_flip_rule (cfgP : PulseFractionSettings)
    (cfgB : BiPhaseSettings) (pin pinB : Bool) (t tB tp : Nat)
    (s sB sp : LirrState) :
    ((pulseFractionDecode cfgP pin t s).toggleState ≠ s.toggleState ↔
      (pin = cfgP.distanceMode ∧ s.bitsRemaining = 1 ∧
       cfgP.bitMin < elapsed t s.referenceTime ∧
       elapsed t s.referenceTime < cfgP.bitMax ∧
       s.buttonState = BUTTON_NONE)) ∧
    ((biPhaseDecode cfgB pinB tB sB).toggleState ≠ sB.toggleState ↔
      (sB.bitsRemaining = 1 ∧
       (activePair cfgB sB.bitSel).1 < elapsed tB sB.referenceTime ∧
       elapsed tB sB.referenceTime < (activePair cfgB sB.bitSel).2 ∧
       sB.buttonState = BUTTON_NONE)) ∧
    (lirrGetEvents tp sp).toggleState = sp.toggleState := by
  refine ⟨?_, ?_, poll_preserves_toggle tp sp⟩
  · rw [pf_decode_toggle]
    by_cases h : pin = cfgP.distanceMode ∧ s.bitsRemaining = 1 ∧
        cfgP.bitMin < elapsed t s.referenceTime ∧
        elapsed t s.referenceTime < cfgP.bitMax ∧
        s.buttonState = BUTTON_NONE <;>
    simp [h]
  · rw [bp_decode_toggle]
    by_cases h : sB.bitsRemaining = 1 ∧
        (activePair cfgB sB.bitSel).1 < elapsed tB sB.referenceTime ∧
        elapsed tB sB.referenceTime < (activePair cfgB sB.bitSel).2 ∧
        sB.buttonState = BUTTON_NONE <;>
    simp [h]

/-- C1: for every pulse-fraction descriptor and every measuring-edge
sequence encoding a known bit pattern within the descriptor's bounds (a
valid start interval — or start checking disabled — then one interval per
bit strictly inside (bitMin, bitMax)), the decoder completes the frame and
its accumulator equals the most-significant-bit-first assembly of the
pattern: bit index bits-remaining (counting down to 0) is set exactly when
the corresponding interval exceeds bitSep. -/
theorem c1_pulse_fraction_round_trip (cfg : PulseFractionSettings)
    (s : LirrState) (startIv : Nat) (ds : List Nat)
    (hbits : cfg.bits = ds.length) (hbr : s.bitsRemaining = 0)
    (hrt : s.referenceTime < W) (hsv : startIv < W)
    (hstart : (startIv < cfg.startMax ∧ cfg.startMin < startIv) ∨
      cfg.startMax = 0)
    (hds : ∀ d ∈ ds, cfg.bitMin < d ∧ d < cfg.bitMax)
    (hmax : cfg.bitMax ≤ W) :
    (runPFMeasuring cfg (measureTimes s.referenceTime (startIv :: ds))
        s).bitsRemaining = 0 ∧
    (runPFMeasuring cfg (measureTimes s.referenceTime (startIv :: ds))
        s).incomingCode = msbAssemble cfg.bitSep cfg.bits ds :=
  pf_frame_from_idle cfg s startIv ds hbits hbr hrt hsv hstart hds hmax

/-- Witness for C1 at the spec's concrete descriptor: start interval 800,
bit intervals 800, 900, 500, 800 assemble to 0b1101 = 13. -/
theorem c1_round_trip_witness :
    ((runPFMeasuring pfTestSettings
        (measureTimes freshState.referenceTime (800 :: [800, 900, 500, 800]))
        freshState).bitsRemaining = 0 ∧
     (runPFMeasuring pfTestSettings
        (measureTimes freshState.referenceTime (800 :: [800, 900, 500, 800]))
        freshState).incomingCode
       = msbAssemble pfTestSettings.bitSep pfTestSettings.bits
           [800, 900, 500, 800]) ∧
    msbAssemble pfTestSettings.bitSep pfTestSettings.bits [800, 900, 500, 800]
      = 13 :=
  ⟨c1_pulse_fraction_round_trip pfTestSettings freshState 800
    [800, 900, 500, 800] (by decide) (by decide) (by decide) (by decide)
    (Or.inr (by decide)) (by decide) (by decide), by decide⟩

/-- `PROTOCOL_RC5 = {13,true,{1578,1978},{1578,1978},{1578,1978},11}` from
the header. -/
def rc5Settings : BiPhaseSettings :=
  ⟨13, true, (1578, 1978), (1578, 1978), (1578, 1978), 11⟩

/-- A pulse-fraction mid-frame state: 3 bits still to read, partial
accumulator 8, Event Record idle. -/
def c5PFState : LirrState := ⟨0, 8, 3, BitSel.bitT, 0, 0, 0, 0, false⟩

/-- A bi-phase mid-frame state: 5 bits still to read, ordinary timing pair
active, Event Record idle. -/
def c5BPState : LirrState := ⟨0, 64, 5, BitSel.bitT, 0, 0, 0, 0, false⟩

/-- Adding `2 ^ b` to a number whose bits up to `b` are all clear changes
no bit other than bit `b`. -/
theorem testBit_add_two_pow_of_ne (c b j : Nat) (hc : c % 2 ^ (b + 1) = 0)
    (hj : j ≠ b) : (c + 2 ^ b).testBit j = c.testBit j := by
  obtain ⟨m, hm⟩ := Nat.dvd_of_mod_eq_zero hc
  subst hm
  rw [Nat.testBit_mul_pow_two_add m (Nat.pow_lt_pow_succ (by norm_num)),
    Nat.testBit_mul_pow_two]
  by_cases h : j < b + 1
  · simp [h, Nat.testBit_two_pow, Ne.symm hj, Nat.not_le.mpr h]
  · simp [h, Nat.le_of_not_lt h]

/-- Arithmetic facts behind `incomingCode += (1UL << bitsRemaining)` in the
bi-phase decoder, when the accumulator's low bits are clear: the modular
addition does not overflow, keeps the bits below `br` clear, and changes no
bit other than bit `br`. -/
theorem bp_add_bit_facts (code br : Nat) (hlt : code < W)
    (hmod : code % 2 ^ (br + 1) = 0) (hbr : br < 32) :
    (code + (1 <<< br) % W) % W = code + 2 ^ br ∧
    code + 2 ^ br < W ∧ (code + 2 ^ br) % 2 ^ br = 0 ∧
    ∀ j, j ≠ br → (code + 2 ^ br).testBit j = code.testBit j := by
  have hWeq : W = 2 ^ 32 := by norm_num [W]
  have hpow : (1 <<< br) = 2 ^ br := Nat.one_shiftLeft br
  have hplt : 2 ^ br < W := by
    rw [hWeq]; exact Nat.pow_lt_pow_right (by norm_num) hbr
  have hdvd1 : 2 ^ (br + 1) ∣ code := Nat.dvd_of_mod_eq_zero hmod
  have hdvdW : 2 ^ (br + 1) ∣ W := by
    rw [hWeq]; exact pow_dvd_pow 2 (by omega)
  have hsub : 2 ^ (br + 1) ∣ (W - code) := Nat.dvd_sub' hdvdW hdvd1
  have hlee : 2 ^ (br + 1) ≤ W - code := Nat.le_of_dvd (by omega) hsub
  have h2 : 2 ^ br < 2 ^ (br + 1) := Nat.pow_lt_pow_succ (by norm_num)
  have hltW : code + 2 ^ br < W := by omega
  have hbrdvd : 2 ^ br ∣ code :=
    dvd_trans (pow_dvd_pow 2 (Nat.le_succ br)) hdvd1
  refine ⟨?_, hltW, ?_, ?_⟩
  · rw [hpow, Nat.mod_eq_of_lt hplt, Nat.mod_eq_of_lt hltW]
  · rw [Nat.add_mod, Nat.mod_eq_zero_of_dvd hbrdvd, Nat.mod_self]
    simp
  · intro j hj
    exact testBit_add_two_pow_of_ne code br j hmod hj

/-- `W` is positive. -/
theorem W_pos : 0 < W := by norm_num [W]

/-- Field-level effect of an in-bounds mid-bit edge of the bi-phase
decoder: bits-remaining decrements, the accumulator gains bit
`bitsRemaining - 1` exactly when the edge level matches the polarity flag
and that position is not the toggle position, and `buttonCode` is either
untouched or set to the (new) accumulator. -/
theorem bp_step_bit_fields (cfg : BiPhaseSettings) (pin : Bool) (t : Nat)
    (s : LirrState) (hbr : s.bitsRemaining ≠ 0)
    (hlo : (activePair cfg s.bitSel).1 < elapsed t s.referenceTime)
    (hhi : elapsed t s.referenceTime < (activePair cfg s.bitSel).2) :
    (biPhaseDecode cfg pin t s).bitsRemaining = s.bitsRemaining - 1 ∧
    (biPhaseDecode cfg pin t s).incomingCode =
      (if pin = cfg.aceRising ∧ s.bitsRemaining - 1 ≠ cfg.togglePos then
        (s.incomingCode + (1 <<< (s.bitsRemaining - 1)) % W) % W
       else s.incomingCode) ∧
    ((biPhaseDecode cfg pin t s).buttonCode = s.buttonCode ∨
      (biPhaseDecode cfg pin t s).buttonCode =
        (biPhaseDecode cfg pin t s).incomingCode) := by
  by_cases hadd : pin = cfg.aceRising ∧ s.bitsRemaining - 1 ≠ cfg.togglePos <;>
  by_cases hbz : s.bitsRemaining - 1 = 0 <;>
  by_cases hn : s.buttonState = BUTTON_NONE <;>
  simp [biPhaseDecode, hbr, hlo, hhi, hadd, hbz, hn]

/-- When the elapsed time is at or above the active pair's upper bound, the
bi-phase decoder aborts: it re-runs the start check on a state whose
bits-remaining is 0. -/
theorem bp_step_abort (cfg : BiPhaseSettings) (pin : Bool) (t : Nat)
    (s : LirrState) (hbr : s.bitsRemaining ≠ 0)
    (hhi : ¬ elapsed t s.referenceTime < (activePair cfg s.bitSel).2) :
    biPhaseDecode cfg pin t s =
      bpStartCheck cfg pin t { s with bitsRemaining := 0 } := by
  simp [biPhaseDecode, hbr, hhi]

/-- A sub-bit-period edge (at or below the active pair's lower bound but
below its upper bound) leaves the bi-phase decoder state unchanged. -/
theorem bp_step_nochange (cfg : BiPhaseSettings) (pin : Bool) (t : Nat)
    (s : LirrState) (hbr : s.bitsRemaining ≠ 0)
    (hhi : elapsed t s.referenceTime < (activePair cfg s.bitSel).2)
    (hlo : ¬ (activePair cfg s.bitSel).1 < elapsed t s.referenceTime) :
    biPhaseDecode cfg pin t s = s := by
  simp [biPhaseDecode, hbr, hhi, hlo]

/-- With no frame in progress the bi-phase decoder just runs the start
check. -/
theorem bp_step_idle (cfg : BiPhaseSettings) (pin : Bool) (t : Nat)
    (s : LirrState) (hbr : s.bitsRemaining = 0) :
    biPhaseDecode cfg pin t s = bpStartCheck cfg pin t s := by
  simp [biPhaseDecode, hbr]

/-- Companion to `bp_step_bit_fields`: the reference time and timing-pair
selection after an in-bounds mid-bit edge. -/
theorem bp_step_bit_state (cfg : BiPhaseSettings) (pin : Bool) (t : Nat)
    (s : LirrState) (hbr : s.bitsRemaining ≠ 0)
    (hlo : (activePair cfg s.bitSel).1 < elapsed t s.referenceTime)
    (hhi : elapsed t s.referenceTime < (activePair cfg s.bitSel).2) :
    (biPhaseDecode cfg pin t s).referenceTime = t ∧
    (biPhaseDecode cfg pin t s).bitSel =
      (if s.bitsRemaining - 1 = 0 then s.bitSel
       else if s.bitsRemaining - 1 ≠ cfg.togglePos + 1 ∧
           s.bitsRemaining - 1 ≠ cfg.togglePos then BitSel.bitT
       else BitSel.toggleT) := by
  by_cases hsel : s.bitsRemaining - 1 ≠ cfg.togglePos + 1 ∧
      s.bitsRemaining - 1 ≠ cfg.togglePos <;>
  by_cases hbz : s.bitsRemaining - 1 = 0 <;>
  by_cases hn : s.buttonState = BUTTON_NONE <;>
  simp [biPhaseDecode, hbr, hlo, hhi, hsel, hbz, hn]

/-- Decoding a full bi-phase frame body (one in-bounds mid-bit edge per
bit, bounds tracked by `bpFrameOk`) from a mid-frame state counts the
remaining bits down to zero and adds the most-significant-bit-first
assembly to the accumulator. -/
theorem bp_run_frame (cfg : BiPhaseSettings) (hbits : cfg.bits ≤ 32) :
    ∀ (es : List (Bool × Nat)) (s : LirrState),
    s.bitsRemaining = es.length → s.bitsRemaining ≤ cfg.bits →
    s.referenceTime < W → s.incomingCode < W →
    s.incomingCode % 2 ^ s.bitsRemaining = 0 →
    bpFrameOk cfg s.bitSel s.bitsRemaining es = true →
    (∀ e ∈ es, e.2 < W) →
    (runBP cfg (bpEdgeTimes s.referenceTime es) s).bitsRemaining = 0 ∧
    (runBP cfg (bpEdgeTimes s.referenceTime es) s).incomingCode
      = s.incomingCode + bpAssemble cfg es.length es
  | [], s, hbr, _, _, _, _, _, _ => by
    simp [runBP, bpEdgeTimes, bpAssemble, hbr]
  | e :: es, s, hbr, hle, hrt, hlt, hmod, hok, hdW => by
    obtain ⟨p, d⟩ := e
    simp only [List.length_cons] at hbr
    have hdlt : d < W := hdW (p, d) (List.mem_cons_self _ _)
    have he : elapsed ((s.referenceTime + d) % W) s.referenceTime = d :=
      elapsed_mod_add s.referenceTime d hrt hdlt
    have hbr0 : s.bitsRemaining ≠ 0 := by omega
    simp only [bpFrameOk, Bool.and_eq_true, decide_eq_true_eq] at hok
    obtain ⟨⟨hlo, hhi⟩, hrest⟩ := hok
    have hlo2 : (activePair cfg s.bitSel).1
        < elapsed ((s.referenceTime + d) % W) s.referenceTime := by
      rw [he]; exact hlo
    have hhi2 : elapsed ((s.referenceTime + d) % W) s.referenceTime
        < (activePair cfg s.bitSel).2 := by
      rw [he]; exact hhi
    have hstep := bp_step_bit_fields cfg p ((s.referenceTime + d) % W) s
      hbr0 hlo2 hhi2
    have hstate := bp_step_bit_state cfg p ((s.referenceTime + d) % W) s
      hbr0 hlo2 hhi2
    set s1 := biPhaseDecode cfg p ((s.referenceTime + d) % W) s with hs1
    have hbrlt : s.bitsRemaining - 1 < 32 := by omega
    have hmodsucc : s.incomingCode % 2 ^ (s.bitsRemaining - 1 + 1) = 0 := by
      have h : s.bitsRemaining - 1 + 1 = s.bitsRemaining := by omega
      rw [h]; exact hmod
    have hsh : (1 <<< (s.bitsRemaining - 1)) % W
        = 2 ^ (s.bitsRemaining - 1) := by
      rw [Nat.one_shiftLeft]
      refine Nat.mod_eq_of_lt ?_
      have hWeq : W = 2 ^ 32 := by norm_num [W]
      rw [hWeq]
      exact Nat.pow_lt_pow_right (by norm_num) hbrlt
    have hf := bp_add_bit_facts s.incomingCode (s.bitsRemaining - 1) hlt
      hmodsucc hbrlt
    have hcode : s1.incomingCode =
        s.incomingCode + (if p = cfg.aceRising ∧
          s.bitsRemaining - 1 ≠ cfg.togglePos then
            (1 <<< (s.bitsRemaining - 1)) % W else 0) ∧
        s1.incomingCode < W ∧
        s1.incomingCode % 2 ^ (s.bitsRemaining - 1) = 0 := by
      rw [hstep.2.1]
      by_cases hadd : p = cfg.aceRising ∧
          s.bitsRemaining - 1 ≠ cfg.togglePos
      · rw [if_pos hadd, if_pos hadd, hf.1, hsh]
        exact ⟨rfl, hf.2.1, hf.2.2.1⟩
      · rw [if_neg hadd, if_neg hadd]
        refine ⟨by simp, hlt, ?_⟩
        exact Nat.mod_eq_zero_of_dvd (dvd_trans
          (pow_dvd_pow 2 (by omega)) (Nat.dvd_of_mod_eq_zero hmod))
    have hbr1 : s1.bitsRemaining = es.length := by
      rw [hstep.1]; omega
    have hrt1 : s1.referenceTime = (s.referenceTime + d) % W := hstate.1
    have hok1 : bpFrameOk cfg s1.bitSel s1.bitsRemaining es = true := by
      cases es with
      | nil => rfl
      | cons f fs =>
        have hbz : ¬ s.bitsRemaining - 1 = 0 := by
          simp only [List.length_cons] at hbr1 hbr
          omega
        rw [hstate.2, if_neg hbz, hbr1]
        rw [hbr]
        simp only [List.length_cons, Nat.add_sub_cancel]
        simpa [hbr] using hrest
    have ih := bp_run_frame cfg hbits es s1 hbr1 (by omega)
      (by rw [hrt1]; exact mod_W_lt _) hcode.2.1
      (by rw [hbr1]
          have h : es.length = s.bitsRemaining - 1 := by omega
          rw [h]; exact hcode.2.2)
      hok1 (fun f hfm => hdW f (List.mem_cons_of_mem _ hfm))
    have hrun : runBP cfg (bpEdgeTimes s.referenceTime ((p, d) :: es)) s
        = runBP cfg (bpEdgeTimes ((s.referenceTime + d) % W) es) s1 := by
      simp [runBP, bpEdgeTimes, hs1]
    rw [hrun]
    rw [hrt1] at ih
    refine ⟨ih.1, ?_⟩
    rw [ih.2, hcode.1]
    simp only [List.length_cons, bpAssemble, Nat.add_sub_cancel]
    have hidx : s.bitsRemaining - 1 = es.length := by omega
    rw [hidx, Nat.add_assoc]

/-- Starting with no frame in progress, a rising start edge followed by a
well-formed bi-phase frame body decodes the whole frame: afterwards no
bits remain and the accumulator holds the most-significant-bit-first
assembly (the accumulator having been reset to 0 by the start edge). -/
theorem bp_frame_from_idle (cfg : BiPhaseSettings) (s : LirrState)
    (t0 : Nat) (es : List (Bool × Nat)) (hbits : cfg.bits ≤ 32)
    (hlen : cfg.bits = es.length) (hbr : s.bitsRemaining = 0)
    (ht0 : t0 < W)
    (hok : bpFrameOk cfg BitSel.startT cfg.bits es = true)
    (hdW : ∀ e ∈ es, e.2 < W) :
    (runBP cfg ((true, t0) :: bpEdgeTimes t0 es) s).bitsRemaining = 0 ∧
    (runBP cfg ((true, t0) :: bpEdgeTimes t0 es) s).incomingCode
      = bpAssemble cfg cfg.bits es := by
  have hstart : biPhaseDecode cfg true t0 s =
      { s with bitsRemaining := cfg.bits, incomingCode := 0,
               bitSel := BitSel.startT, referenceTime := t0 } := by
    rw [bp_step_idle cfg true t0 s hbr]
    simp [bpStartCheck]
  have hrun : runBP cfg ((true, t0) :: bpEdgeTimes t0 es) s =
      runBP cfg (bpEdgeTimes t0 es) (biPhaseDecode cfg true t0 s) := rfl
  rw [hrun, hstart]
  have hmain := bp_run_frame cfg hbits es
    { s with bitsRemaining := cfg.bits, incomingCode := 0,
             bitSel := BitSel.startT, referenceTime := t0 }
    (by simpa using hlen) (by simp) (by simpa using ht0)
    (by simpa using W_pos) (by simp) (by simpa using hok) hdW
  simpa [hlen] using hmain

/-- C5: a measuring interval outside the accepted bounds (outside
(bitMin, bitMax) mid-frame for pulse-fraction; at or above the active
pair's upper bound for bi-phase) discards the partial frame without
touching any Event Record field: afterwards either no frame is in progress,
or — when the same edge already satisfies the (re-armed) start condition —
a new frame has begun with the accumulator reset to 0; and from any idle
state the next well-formed frame (valid start condition followed by
in-bounds bit intervals) decodes to its correct code, in either decoder.
Nothing persists from the aborted frame. -/
theorem c5_abort_discard_and_recovery (cfgP : PulseFractionSettings)
    (cfgB : BiPhaseSettings) (s sB : LirrState) (t tB : Nat) (pinB : Bool) :
    (s.bitsRemaining ≠ 0 →
      ¬(cfgP.bitMin < elapsed t s.referenceTime ∧
        elapsed t s.referenceTime < cfgP.bitMax) →
      (pulseFractionDecode cfgP cfgP.distanceMode t s).buttonCode
          = s.buttonCode ∧
      (pulseFractionDecode cfgP cfgP.distanceMode t s).pressTime
          = s.pressTime ∧
      (pulseFractionDecode cfgP cfgP.distanceMode t s).toggleState
          = s.toggleState ∧
      (pulseFractionDecode cfgP cfgP.distanceMode t s).buttonState
          = s.buttonState ∧
      (pulseFractionDecode cfgP cfgP.distanceMode t s).curTime
          = s.curTime ∧
      ((pulseFractionDecode cfgP cfgP.distanceMode t s).bitsRemaining = 0 ∨
       ((pulseFractionDecode cfgP cfgP.distanceMode t s).bitsRemaining
           = cfgP.bits ∧
        (pulseFractionDecode cfgP cfgP.distanceMode t s).incomingCode
           = 0))) ∧
    (sB.bitsRemaining ≠ 0 →
      elapsed tB sB.referenceTime ≥ (activePair cfgB sB.bitSel).2 →
      (biPhaseDecode cfgB pinB tB sB).buttonCode = sB.buttonCode ∧
      (biPhaseDecode cfgB pinB tB sB).pressTime = sB.pressTime ∧
      (biPhaseDecode cfgB pinB tB sB).toggleState = sB.toggleState ∧
      (biPhaseDecode cfgB pinB tB sB).buttonState = sB.buttonState ∧
      (biPhaseDecode cfgB pinB tB sB).curTime = sB.curTime ∧
      ((biPhaseDecode cfgB pinB tB sB).bitsRemaining = 0 ∨
       ((biPhaseDecode cfgB pinB tB sB).bitsRemaining = cfgB.bits ∧
        (biPhaseDecode cfgB pinB tB sB).incomingCode = 0))) ∧
    (∀ (s2 : LirrState) (startIv : Nat) (ds : List Nat),
      cfgP.bits = ds.length → s2.bitsRemaining = 0 →
      s2.referenceTime < W → startIv < W →
      ((startIv < cfgP.startMax ∧ cfgP.startMin < startIv) ∨
        cfgP.startMax = 0) →
      (∀ d ∈ ds, cfgP.bitMin < d ∧ d < cfgP.bitMax) → cfgP.bitMax ≤ W →
      (runPFMeasuring cfgP (measureTimes s2.referenceTime (startIv :: ds))
          s2).bitsRemaining = 0 ∧
      (runPFMeasuring cfgP (measureTimes s2.referenceTime (startIv :: ds))
          s2).incomingCode = msbAssemble cfgP.bitSep cfgP.bits ds) ∧
    (∀ (s3 : LirrState) (t0 : Nat) (es : List (Bool × Nat)),
      cfgB.bits ≤ 32 → cfgB.bits = es.length → s3.bitsRemaining = 0 →
      t0 < W → bpFrameOk cfgB BitSel.startT cfgB.bits es = true →
      (∀ e ∈ es, e.2 < W) →
      (runBP cfgB ((true, t0) :: bpEdgeTimes t0 es) s3).bitsRemaining
          = 0 ∧
      (runBP cfgB ((true, t0) :: bpEdgeTimes t0 es) s3).incomingCode
          = bpAssemble cfgB cfgB.bits es) := by
  refine ⟨?_, ?_,
    fun s2 startIv ds h1 h2 h3 h4 h5 h6 h7 =>
      pf_frame_from_idle cfgP s2 startIv ds h1 h2 h3 h4 h5 h6 h7,
    fun s3 t0 es h1 h2 h3 h4 h5 h6 =>
      bp_frame_from_idle cfgB s3 t0 es h1 h2 h3 h4 h5 h6⟩
  · intro hbr hb
    simp only [pulseFractionDecode, pfStartCheck]
    split_ifs <;> (try simp_all) <;> omega
  · intro hbr hb
    simp only [biPhaseDecode, bpStartCheck]
    split_ifs <;> (try simp_all) <;> omega

/-- Witness for C5: the pulse-fraction abort at interval 300 under the
spec's concrete descriptor, a bi-phase abort at interval 2500 under the
RC5 descriptor, pulse-fraction recovery decoding 500, 500, 800, 900 to
0b0011 = 3, and bi-phase recovery decoding a well-formed 3-bit frame to
0b101 = 5. -/
theorem c5_abort_recovery_witness :
    ((pulseFractionDecode pfTestSettings pfTestSettings.distanceMode 300
        c5PFState).buttonCode = c5PFState.buttonCode ∧
     (pulseFractionDecode pfTestSettings pfTestSettings.distanceMode 300
        c5PFState).pressTime = c5PFState.pressTime ∧
     (pulseFractionDecode pfTestSettings pfTestSettings.distanceMode 300
        c5PFState).toggleState = c5PFState.toggleState ∧
     (pulseFractionDecode pfTestSettings pfTestSettings.distanceMode 300
        c5PFState).buttonState = c5PFState.buttonState ∧
     (pulseFractionDecode pfTestSettings pfTestSettings.distanceMode 300
        c5PFState).curTime = c5PFState.curTime ∧
     ((pulseFractionDecode pfTestSettings pfTestSettings.distanceMode 300
        c5PFState).bitsRemaining = 0 ∨
      ((pulseFractionDecode pfTestSettings pfTestSettings.distanceMode 300
        c5PFState).bitsRemaining = pfTestSettings.bits ∧
       (pulseFractionDecode pfTestSettings pfTestSettings.distanceMode 300
        c5PFState).incomingCode = 0))) ∧
    ((biPhaseDecode rc5Settings true 2500 c5BPState).buttonCode
        = c5BPState.buttonCode ∧
     (biPhaseDecode rc5Settings true 2500 c5BPState).toggleState
        = c5BPState.toggleState ∧
     (biPhaseDecode rc5Settings true 2500 c5BPState).curTime
        = c5BPState.curTime) ∧
    ((runPFMeasuring pfTestSettings
        (measureTimes freshState.referenceTime (1000 :: [500, 500, 800, 900]))
        freshState).incomingCode
      = msbAssemble pfTestSettings.bitSep pfTestSettings.bits
          [500, 500, 800, 900]) ∧
    ((runBP bpTestSettings ((true, 100) :: bpEdgeTimes 100
        [(true, 800), (false, 800), (true, 800)]) freshState).incomingCode
      = bpAssemble bpTestSettings bpTestSettings.bits
          [(true, 800), (false, 800), (true, 800)]) ∧
    bpAssemble bpTestSettings bpTestSettings.bits
        [(true, 800), (false, 800), (true, 800)] = 5 := by
  have h := c5_abort_discard_and_recovery pfTestSettings rc5Settings
    c5PFState c5BPState 300 2500 true
  have h2 := c5_abort_discard_and_recovery pfTestSettings bpTestSettings
    freshState freshState 0 0 true
  have hB := h.2.1 (by decide) (by decide)
  refine ⟨h.1 (by decide) (by decide), ⟨hB.1, hB.2.2.1, hB.2.2.2.2.1⟩,
    ?_, ?_, by decide⟩
  · exact (h.2.2.1 freshState 1000 [500, 500, 800, 900] (by decide)
      (by decide) (by decide) (by decide) (Or.inr (by decide)) (by decide)
      (by decide)).2
  · exact (h2.2.2.2 freshState 100 [(true, 800), (false, 800), (true, 800)]
      (by decide) (by decide) (by decide) (by decide) (by decide)
      (by decide)).2

/-- A pulse-fraction state one bit away from frame completion, Event Record
idle, partial accumulator 12. -/
def c2NoneState : LirrState := ⟨0, 12, 1, BitSel.bitT, 0, 0, 0, 0, false⟩

/-- Like `c2NoneState` but with an event still active (HELD, code 7,
toggle set). -/
def c2HeldState : LirrState := ⟨0, 12, 1, BitSel.bitT, 0, 0, 7, 2, true⟩

/-- A state one bit from completion with an all-zero accumulator and an
idle Event Record. -/
def c10ZeroState : LirrState := ⟨0, 0, 1, BitSel.bitT, 0, 0, 0, 0, false⟩

/-- C2: when the final bit of a frame is accepted in either decoder, the
decoder leaves bits-remaining at 0 (so it keeps running and re-arms), and
it writes buttonCode = accumulator, pressTime = the completion timestamp,
and inverts toggleState exactly when the Event Record's state is
BUTTON_NONE at that instant; in any other state (PRESSED, HELD, RELEASED)
those three fields are left unchanged. -/
theorem c2_completion_publish_iff_none (cfgP : PulseFractionSettings)
    (cfgB : BiPhaseSettings) (s sB : LirrState) (t tB : Nat) (pinB : Bool) :
    (s.bitsRemaining = 1 →
      cfgP.bitMin < elapsed t s.referenceTime →
      elapsed t s.referenceTime < cfgP.bitMax →
      (pulseFractionDecode cfgP cfgP.distanceMode t s).bitsRemaining = 0 ∧
      (s.buttonState = BUTTON_NONE →
        (pulseFractionDecode cfgP cfgP.distanceMode t s).buttonCode =
          (pulseFractionDecode cfgP cfgP.distanceMode t s).incomingCode ∧
        (pulseFractionDecode cfgP cfgP.distanceMode t s).pressTime = t ∧
        (pulseFractionDecode cfgP cfgP.distanceMode t s).toggleState
          = !s.toggleState) ∧
      (s.buttonState ≠ BUTTON_NONE →
        (pulseFractionDecode cfgP cfgP.distanceMode t s).buttonCode
          = s.buttonCode ∧
        (pulseFractionDecode cfgP cfgP.distanceMode t s).pressTime
          = s.pressTime ∧
        (pulseFractionDecode cfgP cfgP.distanceMode t s).toggleState
          = s.toggleState)) ∧
    (sB.bitsRemaining = 1 →
      (activePair cfgB sB.bitSel).1 < elapsed tB sB.referenceTime →
      elapsed tB sB.referenceTime < (activePair cfgB sB.bitSel).2 →
      (biPhaseDecode cfgB pinB tB sB).bitsRemaining = 0 ∧
      (sB.buttonState = BUTTON_NONE →
        (biPhaseDecode cfgB pinB tB sB).buttonCode =
          (biPhaseDecode cfgB pinB tB sB).incomingCode ∧
        (biPhaseDecode cfgB pinB tB sB).pressTime = tB ∧
        (biPhaseDecode cfgB pinB tB sB).toggleState = !sB.toggleState) ∧
      (sB.buttonState ≠ BUTTON_NONE →
        (biPhaseDecode cfgB pinB tB sB).buttonCode = sB.buttonCode ∧
        (biPhaseDecode cfgB pinB tB sB).pressTime = sB.pressTime ∧
        (biPhaseDecode cfgB pinB tB sB).toggleState = sB.toggleState)) := by
  constructor
  · intro h1 hlo hhi
    simp only [pulseFractionDecode, pfStartCheck]
    split_ifs <;> (try simp_all) <;> omega
  · intro h1 hlo hhi
    simp only [biPhaseDecode, bpStartCheck]
    split_ifs <;> (try simp_all) <;> omega

/-- Witness for C2: a final 800 µs interval completing a pulse-fraction
frame publishes into an idle record (code 13, press time 800, toggle
inverted) and leaves a HELD record untouched; a final mid-bit edge under
RC5 publishes into an idle record. -/
theorem c2_completion_witness :
    ((pulseFractionDecode pfTestSettings pfTestSettings.distanceMode 800
        c2NoneState).buttonCode =
       (pulseFractionDecode pfTestSettings pfTestSettings.distanceMode 800
        c2NoneState).incomingCode ∧
     (pulseFractionDecode pfTestSettings pfTestSettings.distanceMode 800
        c2NoneState).pressTime = 800 ∧
     (pulseFractionDecode pfTestSettings pfTestSettings.distanceMode 800
        c2NoneState).toggleState = !c2NoneState.toggleState) ∧
    ((pulseFractionDecode pfTestSettings pfTestSettings.distanceMode 800
        c2HeldState).buttonCode = c2HeldState.buttonCode ∧
     (pulseFractionDecode pfTestSettings pfTestSettings.distanceMode 800
        c2HeldState).pressTime = c2HeldState.pressTime ∧
     (pulseFractionDecode pfTestSettings pfTestSettings.distanceMode 800
        c2HeldState).toggleState = c2HeldState.toggleState) ∧
    (biPhaseDecode rc5Settings true 1700 c10ZeroState).pressTime = 1700 :=
  ⟨((c2_completion_publish_iff_none pfTestSettings rc5Settings c2NoneState
      c2NoneState 800 1700 true).1 (by decide) (by decide)
      (by decide)).2.1 (by decide),
   ((c2_completion_publish_iff_none pfTestSettings rc5Settings c2HeldState
      c2NoneState 800 1700 true).1 (by decide) (by decide)
      (by decide)).2.2 (by decide),
   (((c2_completion_publish_iff_none pfTestSettings rc5Settings c2NoneState
      c10ZeroState 800 1700 true).2 (by decide) (by decide)
      (by decide)).2.1 (by decide)).2.1⟩

/-- C10: a frame completing with an all-zero accumulator while the Event
Record is idle still sets pressTime to the completion timestamp and inverts
toggleState while publishing buttonCode = 0, in both decoders; and since a
poll leaves a NONE record with buttonCode = 0 in NONE, no PRESSED event is
ever observable for such a frame. -/
theorem c10_zero_code_publish (cfgP : PulseFractionSettings)
    (cfgB : BiPhaseSettings) (s sB sp : LirrState) (t tB tp : Nat)
    (pinB : Bool) :
    (s.bitsRemaining = 1 → s.incomingCode = 0 →
      s.buttonState = BUTTON_NONE →
      cfgP.bitMin < elapsed t s.referenceTime →
      elapsed t s.referenceTime < cfgP.bitMax →
      elapsed t s.referenceTime ≤ cfgP.bitSep →
      (pulseFractionDecode cfgP cfgP.distanceMode t s).buttonCode = 0 ∧
      (pulseFractionDecode cfgP cfgP.distanceMode t s).pressTime = t ∧
      (pulseFractionDecode cfgP cfgP.distanceMode t s).toggleState
        = !s.toggleState) ∧
    (sB.bitsRemaining = 1 → sB.incomingCode = 0 →
      sB.buttonState = BUTTON_NONE →
      (activePair cfgB sB.bitSel).1 < elapsed tB sB.referenceTime →
      elapsed tB sB.referenceTime < (activePair cfgB sB.bitSel).2 →
      ¬(pinB = cfgB.aceRising ∧ (0 : Nat) ≠ cfgB.togglePos) →
      (biPhaseDecode cfgB pinB tB sB).buttonCode = 0 ∧
      (biPhaseDecode cfgB pinB tB sB).pressTime = tB ∧
      (biPhaseDecode cfgB pinB tB sB).toggleState = !sB.toggleState) ∧
    (sp.buttonState = BUTTON_NONE → sp.buttonCode = 0 →
      (lirrGetEvents tp sp).buttonState = BUTTON_NONE) := by
  refine ⟨?_, ?_, ?_⟩
  · intro h1 hz hn hlo hhi hsep
    simp only [pulseFractionDecode, pfStartCheck]
    split_ifs <;> (try simp_all) <;> omega
  · intro h1 hz hn hlo hhi hpin
    simp only [biPhaseDecode, bpStartCheck]
    split_ifs <;> (try simp_all) <;> omega
  · intro hn hz
    simp [lirrGetEvents, hn, hz, BUTTON_NONE, BUTTON_PRESSED, BUTTON_HELD,
      BUTTON_RELEASED]

/-- Witness for C10: a 500 µs final interval (below the 700 µs separator)
completes an all-zero pulse-fraction frame — press time and toggle change,
published code is 0 — and a falling final mid-bit edge under RC5 does the
same; a poll of an idle record with code 0 stays NONE. -/
theorem c10_zero_code_witness :
    ((pulseFractionDecode pfTestSettings pfTestSettings.distanceMode 500
        c10ZeroState).buttonCode = 0 ∧
     (pulseFractionDecode pfTestSettings pfTestSettings.distanceMode 500
        c10ZeroState).pressTime = 500 ∧
     (pulseFractionDecode pfTestSettings pfTestSettings.distanceMode 500
        c10ZeroState).toggleState = !c10ZeroState.toggleState) ∧
    ((biPhaseDecode rc5Settings false 1700 c10ZeroState).buttonCode = 0 ∧
     (biPhaseDecode rc5Settings false 1700 c10ZeroState).pressTime = 1700 ∧
     (biPhaseDecode rc5Settings false 1700 c10ZeroState).toggleState
       = !c10ZeroState.toggleState) ∧
    (lirrGetEvents 12345 freshState).buttonState = BUTTON_NONE :=
  ⟨(c10_zero_code_publish pfTestSettings rc5Settings c10ZeroState
      c10ZeroState freshState 500 1700 12345 false).1 (by decide)
      (by decide) (by decide) (by decide) (by decide) (by decide),
   (c10_zero_code_publish pfTestSettings rc5Settings c10ZeroState
      c10ZeroState freshState 500 1700 12345 false).2.1 (by decide)
      (by decide) (by decide) (by decide) (by decide) (by decide),
   (c10_zero_code_publish pfTestSettings rc5Settings c10ZeroState
      c10ZeroState freshState 500 1700 12345 false).2.2 (by decide)
      (by decide)⟩

/-- C7: the bit at the descriptor's toggle position never contributes to
the bi-phase accumulator.  `bpInv` — accumulator below `2^32`, bits below
bits-remaining clear, toggle-position bit clear — is preserved by every
`biPhaseDecode` invocation (whatever the edge level, matching the polarity
flag or not), and whenever an invocation writes `buttonCode` at all, the
published code has bit togglePos equal to 0; so every code a frame
completion publishes has a zero toggle-position bit, while the toggle
position only influences timing-pair selection. -/
theorem c7_toggle_bit_excluded (cfg : BiPhaseSettings) (pin : Bool)
    (t : Nat) (s : LirrState) (hbits : cfg.bits ≤ 32)
    (hinv : bpInv cfg s) :
    bpInv cfg (biPhaseDecode cfg pin t s) ∧
    ((biPhaseDecode cfg pin t s).buttonCode = s.buttonCode ∨
      Nat.testBit (biPhaseDecode cfg pin t s).buttonCode cfg.togglePos
        = false) := by
  unfold bpInv at hinv ⊢
  obtain ⟨hle, hlt, hmod, htb⟩ := hinv
  by_cases hbr0 : s.bitsRemaining = 0
  · rw [bp_step_idle cfg pin t s hbr0]
    unfold bpStartCheck
    split_ifs with hp
    · exact ⟨⟨Nat.le_refl _, W_pos, Nat.zero_mod _, Nat.zero_testBit _⟩,
        Or.inl rfl⟩
    · exact ⟨⟨hle, hlt, hmod, htb⟩, Or.inl rfl⟩
  · by_cases hhi : elapsed t s.referenceTime < (activePair cfg s.bitSel).2
    · by_cases hlo : (activePair cfg s.bitSel).1 < elapsed t s.referenceTime
      · -- mid-bit transition
        have hbrlt : s.bitsRemaining - 1 < 32 := by omega
        have hmodsucc : s.incomingCode % 2 ^ (s.bitsRemaining - 1 + 1)
            = 0 := by
          have h : s.bitsRemaining - 1 + 1 = s.bitsRemaining := by omega
          rw [h]; exact hmod
        have hf := bp_add_bit_facts s.incomingCode (s.bitsRemaining - 1)
          hlt hmodsucc hbrlt
        have hstep := bp_step_bit_fields cfg pin t s hbr0 hlo hhi
        have hcode : (biPhaseDecode cfg pin t s).incomingCode < W ∧
            (biPhaseDecode cfg pin t s).incomingCode %
              2 ^ (s.bitsRemaining - 1) = 0 ∧
            Nat.testBit (biPhaseDecode cfg pin t s).incomingCode
              cfg.togglePos = false := by
          rw [hstep.2.1]
          by_cases hadd : pin = cfg.aceRising ∧
              s.bitsRemaining - 1 ≠ cfg.togglePos
          · rw [if_pos hadd, hf.1]
            refine ⟨hf.2.1, hf.2.2.1, ?_⟩
            rw [hf.2.2.2 cfg.togglePos (Ne.symm hadd.2)]
            exact htb
          · rw [if_neg hadd]
            refine ⟨hlt, ?_, htb⟩
            exact Nat.mod_eq_zero_of_dvd (dvd_trans
              (pow_dvd_pow 2 (by omega)) (Nat.dvd_of_mod_eq_zero hmod))
        refine ⟨⟨?_, hcode.1, ?_, hcode.2.2⟩, ?_⟩
        · rw [hstep.1]; omega
        · rw [hstep.1]; exact hcode.2.1
        · rcases hstep.2.2 with h | h
          · exact Or.inl h
          · refine Or.inr ?_
            rw [h]
            exact hcode.2.2
      · rw [bp_step_nochange cfg pin t s hbr0 hhi hlo]
        exact ⟨⟨hle, hlt, hmod, htb⟩, Or.inl rfl⟩
    · rw [bp_step_abort cfg pin t s hbr0 hhi]
      unfold bpStartCheck
      split_ifs with hp
      · exact ⟨⟨Nat.le_refl _, W_pos, Nat.zero_mod _, Nat.zero_testBit _⟩,
          Or.inl rfl⟩
      · exact ⟨⟨Nat.zero_le _, hlt, Nat.mod_one _, htb⟩, Or.inl rfl⟩

/-- Witness for C7 under the RC5 descriptor: a matching-polarity mid-bit
edge at 1700 µs on a mid-frame state with accumulator 64 preserves the
invariant, and the published-code clause holds. -/
theorem c7_toggle_excluded_witness :
    bpInv rc5Settings (biPhaseDecode rc5Settings true 1700 c5BPState) ∧
    ((biPhaseDecode rc5Settings true 1700 c5BPState).buttonCode
        = c5BPState.buttonCode ∨
     Nat.testBit (biPhaseDecode rc5Settings true 1700 c5BPState).buttonCode
       rc5Settings.togglePos = false) :=
  c7_toggle_bit_excluded rc5Settings true 1700 c5BPState (by decide)
    (by unfold bpInv; refine ⟨by decide, by decide, by decide, by decide⟩)

/-- C9: all elapsed-time values are 32-bit modular differences compared
with strict inequalities, so shifting every timestamp (the edge time, the
poll time, and the stored reference/press/poll times) by the same offset
modulo `2^32` commutes with both decoders and with the poll: the decode and
release decisions are identical whether or not the microsecond counter
wraps between the two timestamps. -/
theorem c9_wraparound_invariance (cfgP : PulseFractionSettings)
    (cfgB : BiPhaseSettings) (pin pinB : Bool) (d t tB tp : Nat)
    (s : LirrState) (ht : t < W) (htB : tB < W) (htp : tp < W)
    (hr : s.referenceTime < W) :
    pulseFractionDecode cfgP pin ((t + d) % W) (shiftState d s)
      = shiftState d (pulseFractionDecode cfgP pin t s) ∧
    biPhaseDecode cfgB pinB ((tB + d) % W) (shiftState d s)
      = shiftState d (biPhaseDecode cfgB pinB tB s) ∧
    lirrGetEvents ((tp + d) % W) (shiftState d s)
      = shiftState d (lirrGetEvents tp s) := by
  refine ⟨?_, ?_, ?_⟩
  · have he := elapsed_shift t s.referenceTime d ht hr
    simp only [pulseFractionDecode, pfStartCheck, shiftState]
    simp only [he]
    split_ifs <;> simp_all
  · have he := elapsed_shift tB s.referenceTime d htB hr
    simp only [biPhaseDecode, bpStartCheck, shiftState]
    simp only [he]
    split_ifs <;> simp_all
  · have he := elapsed_shift tp s.referenceTime d htp hr
    simp only [lirrGetEvents, shiftState]
    simp only [he]
    split_ifs <;> simp_all

/-- Witness for C9 with an offset that makes the shifted timestamps wrap
past `2^32`: edge at 1000 µs, bi-phase edge at 2000 µs, poll at 300000 µs,
all shifted by 4294966496. -/
theorem c9_wraparound_witness :
    pulseFractionDecode pfTestSettings true ((1000 + 4294966496) % W)
        (shiftState 4294966496 publishedState)
      = shiftState 4294966496
          (pulseFractionDecode pfTestSettings true 1000 publishedState) ∧
    biPhaseDecode rc5Settings true ((2000 + 4294966496) % W)
        (shiftState 4294966496 publishedState)
      = shiftState 4294966496
          (biPhaseDecode rc5Settings true 2000 publishedState) ∧
    lirrGetEvents ((300000 + 4294966496) % W)
        (shiftState 4294966496 publishedState)
      = shiftState 4294966496 (lirrGetEvents 300000 publishedState) :=
  c9_wraparound_invariance pfTestSettings rc5Settings true true 4294966496
    1000 2000 300000 publishedState (by decide) (by decide) (by decide)
    (by decide)

end LIRR
